import Mathlib

/-!
Shallow embedding of the voice-trainer pitch-training application
(`src/app.js`, with the countdown variant from `src/unnamed/part_000`).

Conventions of the embedding:
* JavaScript numbers are modelled as `ℚ` where the code only ever performs
  field operations and comparisons (score engine, scheduler timing), and as
  `ℝ` where the code uses `Math.log2` / `Math.pow` / `Math.sqrt`
  (pitch math, YIN pitch detection).
* `Math.round` (round half toward +∞) is `⌊x + 1/2⌋`.
* `Math.floor(a / b)` on integers is `Int.fdiv`; the JavaScript `%`
  operator (truncating remainder) is `Int.tmod`.
* `Array.prototype.indexOf` returns `-1` when the element is absent;
  out-of-range array reads yield the JavaScript `undefined`, modelled by a
  sentinel string.
-/

/-- The chromatic note names, `noteNames` in `src/app.js` line 11 (sharps
only; the source normalizes flats upstream). -/
def noteNames : List String :=
  ["C", "C#", "D", "D#", "E", "F"] ++ ["F#", "G", "G#", "A", "A#", "B"]

/-- JavaScript `Array.prototype.indexOf`: index of the first occurrence,
`-1` when absent. -/
def jsIndexOf (l : List String) (s : String) : ℤ :=
  if s ∈ l then (l.indexOf s : ℤ) else -1

/-- JavaScript array read `l[i]`: the element when `0 ≤ i < l.length`,
otherwise `undefined` (modelled by a sentinel string). -/
def jsArrayGet (l : List String) (i : ℤ) : String :=
  if 0 ≤ i then l.getD i.toNat "undefined" else "undefined"

/-- JavaScript `Math.round` on a rational value: round half toward +∞. -/
def jsRoundQ (x : ℚ) : ℤ := ⌊x + 1/2⌋

/-- JavaScript `Math.round` on a real value: round half toward +∞. -/
noncomputable def jsRoundR (x : ℝ) : ℤ := ⌊x + 1/2⌋

/-- Source `getAdjustedDuration` (`src/app.js` lines 790-792): tempo-adjusted
duration in ms.  The module-level `tempoPercent` is passed explicitly. -/
def getAdjustedDuration (tempoPercent : ℚ) (baseDuration : ℚ) : ℚ :=
  baseDuration * (100 / tempoPercent)

/-- Source `calculateNoteScore` (`src/app.js` lines 1492-1519): per-note score from
the collected cents-deviation samples, accumulated on-pitch time and the
note's total (tempo-adjusted) time. -/
def calculateNoteScore (pitchSamples : List ℚ) (timeOnPitch : ℚ)
    (totalTime : ℚ) : ℤ :=
  if pitchSamples.length = 0 then 0
  else
    let avgCents := (pitchSamples.map (fun b => |b|)).sum / pitchSamples.length
    let accuracyScore : ℚ :=
      if avgCents ≤ 25 then 60
      else if avgCents ≤ 50 then 55
      else if avgCents ≤ 75 then 50
      else if avgCents ≤ 100 then 40
      else if avgCents ≤ 150 then 30
      else max 10 (25 - (avgCents - 150) / 20)
    let timeScore := timeOnPitch / totalTime * 40
    jsRoundQ (accuracyScore + timeScore)

/-- Modelled from the spec (§4.6): the accuracy step function of the mean
absolute cents deviation. -/
def specAccuracy (avgCents : ℚ) : ℚ :=
  if avgCents ≤ 25 then 60
  else if avgCents ≤ 50 then 55
  else if avgCents ≤ 75 then 50
  else if avgCents ≤ 100 then 40
  else if avgCents ≤ 150 then 30
  else max 10 (25 - (avgCents - 150) / 20)

/-- Modelled from the spec (§4.6): per-note score, 0 when no samples were
collected, otherwise `round(accuracy + (timeOnPitch/totalTime)*40)`. -/
def specNoteScore (samples : List ℚ) (timeOnPitch : ℚ) (totalTime : ℚ) : ℤ :=
  if samples = [] then 0
  else
    jsRoundQ (specAccuracy ((samples.map (fun b => |b|)).sum / samples.length)
      + timeOnPitch / totalTime * 40)

/-- Source `noteToSemitone` (`src/app.js` lines 737-739): note + octave to a
semitone number with C0 = 0. -/
def noteToSemitone (note : String) (octave : ℤ) : ℤ :=
  octave * 12 + jsIndexOf noteNames note

/-- Source `semitoneToNote` (`src/app.js` lines 742-746): semitone number back to
note + octave; `Math.floor` division and the double-`%` trick for negative
values are kept. -/
def semitoneToNote (semitone : ℤ) : String × ℤ :=
  let octave := semitone.fdiv 12
  let noteIndex := ((semitone.tmod 12) + 12).tmod 12
  (jsArrayGet noteNames noteIndex, octave)

/-- Source `getFrequency` (`src/app.js` lines 220-224):
`440 * 2^((midi - 69)/12)` with `midi = (octave+1)*12 + indexOf(note)`. -/
noncomputable def getFrequency (note : String) (octave : ℤ) : ℝ :=
  let noteIndex := jsIndexOf noteNames note
  let midiNote := (octave + 1) * 12 + noteIndex
  440 * (2 : ℝ) ^ (((midiNote : ℝ) - 69) / 12)

/-- Source `getCentsDifference` (`src/app.js` lines 441-443). -/
noncomputable def getCentsDifference (detected target : ℝ) : ℝ :=
  1200 * Real.logb 2 (detected / target)

/-- Source `getNoteFromFrequency` (`src/app.js` lines 446-452): nearest MIDI note
and its rendered name `noteName ++ octave`. -/
noncomputable def getNoteFromFrequency (frequency : ℝ) : String :=
  let noteNum : ℝ := 12 * Real.logb 2 (frequency / 440) + 69
  let note : ℤ := jsRoundR noteNum
  let noteName := jsArrayGet noteNames (note.tmod 12)
  let octave := note.fdiv 12 - 1
  noteName ++ toString octave

/-- RMS of an audio frame, the first computation of `detectPitch`
(`src/app.js` lines 364-369). -/
noncomputable def rmsOf (buffer : List ℝ) : ℝ :=
  Real.sqrt ((buffer.map (fun x => x * x)).sum / buffer.length)

/-- The squared-difference function of the YIN detector
(`src/app.js` lines 376-384). -/
noncomputable def yinDiff (buffer : List ℝ) (maxSamples : ℕ) (tau : ℕ) : ℝ :=
  ∑ i ∈ Finset.range maxSamples,
    (buffer.getD i 0 - buffer.getD (i + tau) 0) *
      (buffer.getD i 0 - buffer.getD (i + tau) 0)

/-- The cumulative-mean-normalized difference (`src/app.js` lines 387-393):
`cmndf[0] = 1`, `cmndf[tau] = diff[tau] / (runningSum/tau)` where
`runningSum` accumulates `diff[1..tau]`. -/
noncomputable def yinCmndf (buffer : List ℝ) (maxSamples : ℕ) (tau : ℕ) : ℝ :=
  if tau = 0 then 1
  else yinDiff buffer maxSamples tau /
    ((∑ j ∈ Finset.Icc 1 tau, yinDiff buffer maxSamples j) / tau)

open Classical in
/-- First scan loop of `detectPitch` (`src/app.js` lines 399-401): advance
`tau` while the normalized difference stays at or above the threshold. -/
noncomputable def yinScanThreshold (cm : ℕ → ℝ) (maxSamples : ℕ) (tau : ℕ) :
    ℕ :=
  if h : tau < maxSamples - 1 ∧ 0.1 ≤ cm tau then
    yinScanThreshold cm maxSamples (tau + 1)
  else tau
termination_by maxSamples - tau
decreasing_by omega

open Classical in
/-- Second scan loop of `detectPitch` (`src/app.js` lines 403-405): keep
advancing while the function is still decreasing, to land on the dip. -/
noncomputable def yinScanDip (cm : ℕ → ℝ) (maxSamples : ℕ) (tau : ℕ) : ℕ :=
  if h : tau < maxSamples - 1 ∧ cm (tau + 1) < cm tau then
    yinScanDip cm maxSamples (tau + 1)
  else tau
termination_by maxSamples - tau
decreasing_by omega

open Classical in
/-- Source `detectPitch` (`src/app.js` lines 360-422): YIN pitch detection; `-1`
is the NONE sentinel. -/
noncomputable def detectPitch (buffer : List ℝ) (sampleRate : ℝ) : ℝ :=
  let maxSamples := buffer.length / 2
  if rmsOf buffer < 0.005 then -1
  else
    let cm := yinCmndf buffer maxSamples
    let tau := yinScanDip cm maxSamples (yinScanThreshold cm maxSamples 2)
    if maxSamples - 1 ≤ tau ∨ 0.1 ≤ cm tau then -1
    else
      let s0 := cm (tau - 1)
      let s1 := cm tau
      let s2 := cm (tau + 1)
      let adjustment := (s2 - s0) / (2 * (2 * s1 - s2 - s0))
      let tauRefined := if |adjustment| < 1 then (tau : ℝ) + adjustment
        else (tau : ℝ)
      sampleRate / tauRefined

/-- A note of a loaded sequence (`sequences` entries in `src/app.js` after
`loadSequence` has attached `name`).  The `frequency` field of the source is
consumed only by the abstracted pitch-sampling oracle (see
`analyzeSequence`), and display-only fields are not modelled. -/
structure SequenceNote where
  note : String
  octave : ℤ
  duration : ℚ
  noteType : String
  name : String
  deriving DecidableEq, Repr

/-- Junk note used to model a JavaScript out-of-range array read; the
scheduler never reads out of range while playing. -/
def defaultSequenceNote : SequenceNote :=
  { note := "C", octave := 0, duration := 0, noteType := "quarter",
    name := "C0" }

/-- A completed note's record, as pushed by `advanceNote`
(`src/app.js` lines 1464-1472). -/
structure NoteScore where
  note : String
  score : ℤ
  avgCents : ℚ
  timeOnPitch : ℚ
  totalTime : ℚ
  deriving DecidableEq, Repr

/-- The mutable challenge state (`sequenceState` in `src/app.js` lines
203-218, restricted to the fields the challenge logic reads or writes).
`finishedCount` is a ghost counter of `finishSequence` invocations, and
`lastSampleTime` is the module-level `lastSequenceSampleTime`.  The
visualization-only `pitchHistory` and the smoothing window (cleared at each
advance, and abstracted together with pitch detection into the per-tick
oracle) are not modelled. -/
structure SeqState where
  isPlaying : Bool
  isCountingDown : Bool
  currentSequence : List SequenceNote
  currentNoteIndex : ℕ
  noteStartTime : ℚ
  noteScores : List NoteScore
  pitchSamplesForNote : List ℚ
  timeOnPitch : ℚ
  lastSampleTime : ℚ
  finishedCount : ℕ
  deriving DecidableEq, Repr

/-- Source `sequenceSampleInterval` (`src/app.js` line 1411): `1000 / 30` ms. -/
def sequenceSampleInterval : ℚ := 1000 / 30

/-- Source `stopSequence` (`src/app.js` lines 1384-1402), state part: clears the
playing/counting flags.  Releasing the microphone and the DOM updates are
external effects. -/
def stopSequence (s : SeqState) : SeqState :=
  { s with isPlaying := false, isCountingDown := false }

/-- Source `finishSequence`'s state effect (`src/app.js` lines 1522-1534): it
calls `stopSequence` and then renders the (pure) results; the ghost
counter records the invocation. -/
def finishSequence (s : SeqState) : SeqState :=
  let s := stopSequence s
  { s with finishedCount := s.finishedCount + 1 }

/-- Source `advanceNote` (`src/app.js` lines 1455-1489): score the finished note,
push its `NoteScore`, reset the per-note accumulators, move to the next
note, and finish when past the last note.  `now` is the `performance.now()`
reading taken inside the function. -/
def advanceNote (tempoPercent : ℚ) (now : ℚ) (s : SeqState) : SeqState :=
  let currentNote := s.currentSequence.getD s.currentNoteIndex
    defaultSequenceNote
  let adjustedDuration := getAdjustedDuration tempoPercent
    currentNote.duration
  let score := calculateNoteScore s.pitchSamplesForNote s.timeOnPitch
    adjustedDuration
  let ns : NoteScore :=
    { note := currentNote.name
      score := score
      avgCents :=
        if 0 < s.pitchSamplesForNote.length then
          (s.pitchSamplesForNote.map (fun b => |b|)).sum /
            s.pitchSamplesForNote.length
        else 100
      timeOnPitch := s.timeOnPitch
      totalTime := currentNote.duration }
  let s' : SeqState :=
    { s with
      noteScores := s.noteScores ++ [ns]
      currentNoteIndex := s.currentNoteIndex + 1
      pitchSamplesForNote := []
      timeOnPitch := 0
      noteStartTime := now }
  if s'.currentSequence.length ≤ s'.currentNoteIndex then finishSequence s'
  else s'

/-- The sampling block of `analyzeSequence` (`src/app.js` lines 1421-1441).
The pitch pipeline (analyser frame, `detectPitch`, the 80-1000 Hz gate and
`getSmoothedPitch`, then `getCentsDifference` against the current note) is
abstracted as the oracle input `pitchCents`: `some c` stands for a tick
whose gated, smoothed detection yields a cents deviation `c`, `none` for a
tick with no accepted pitch. -/
def sampleStep (timestamp : ℚ) (pitchCents : Option ℚ) (s : SeqState) :
    SeqState :=
  if sequenceSampleInterval ≤ timestamp - s.lastSampleTime then
    let s := { s with lastSampleTime := timestamp }
    match pitchCents with
    | some cents =>
        let s := { s with
          pitchSamplesForNote := s.pitchSamplesForNote ++ [cents] }
        if |cents| ≤ 50 then
          { s with timeOnPitch := s.timeOnPitch + sequenceSampleInterval }
        else s
    | none => s
  else s

/-- One tick of `analyzeSequence` (`src/app.js` lines 1413-1452): no-op
when not playing; otherwise sample, then advance once the elapsed time
reaches the tempo-adjusted duration of the current note. -/
def analyzeSequence (tempoPercent : ℚ) (timestamp : ℚ)
    (pitchCents : Option ℚ) (s : SeqState) : SeqState :=
  if s.isPlaying then
    let currentNote := s.currentSequence.getD s.currentNoteIndex
      defaultSequenceNote
    let adjustedDuration := getAdjustedDuration tempoPercent
      currentNote.duration
    let elapsed := timestamp - s.noteStartTime
    let s' := sampleStep timestamp pitchCents s
    if adjustedDuration ≤ elapsed then advanceNote tempoPercent timestamp s'
    else s'
  else s

/-- Iterate `analyzeSequence` over a list of `(timestamp, oracle)` tick
inputs. -/
def runTicks (tempoPercent : ℚ) (inputs : List (ℚ × Option ℚ))
    (s : SeqState) : SeqState :=
  inputs.foldl (fun st tp => analyzeSequence tempoPercent tp.1 tp.2 st) s

/-- The state at the moment a challenge enters `Playing`: the accumulators
were reset by `startSequence` (`src/app.js` lines 1149-1155) and the
countdown completion (lines 1316-1321 of `src/app.js`, equivalently
`src/unnamed/part_000` lines 1806-1816) has set the flags, the note start
timestamp `t0` and `lastSequenceSampleTime = 0`. -/
def initialRunState (seq : List SequenceNote) (t0 : ℚ) : SeqState :=
  { isPlaying := true
    isCountingDown := false
    currentSequence := seq
    currentNoteIndex := 0
    noteStartTime := t0
    noteScores := []
    pitchSamplesForNote := []
    timeOnPitch := 0
    lastSampleTime := 0
    finishedCount := 0 }

/-- The results computation of `finishSequence` (`src/app.js` lines
1525-1534): total percentage and letter grade. -/
def sequenceResults (noteScores : List NoteScore) : ℤ × String :=
  let totalScore := (noteScores.map (fun ns => ns.score)).sum
  let maxScore : ℤ := noteScores.length * 100
  let percentage := jsRoundQ ((totalScore : ℚ) / (maxScore : ℚ) * 100)
  let grade :=
    if 85 ≤ percentage then "A"
    else if 70 ≤ percentage then "B"
    else if 55 ≤ percentage then "C"
    else if 40 ≤ percentage then "D"
    else "F"
  (percentage, grade)

/-- Modelled from the spec (§4.6): aggregate percentage
`round(100 * Σscores / (100 * noteCount))`. -/
def specPercentage (scores : List ℤ) : ℤ :=
  jsRoundQ (100 * (scores.sum : ℚ) / (100 * scores.length))

/-- Modelled from the spec (§4.6): letter grade thresholds
≥85→A, ≥70→B, ≥55→C, ≥40→D, else F. -/
def specGrade (percentage : ℤ) : String :=
  if 85 ≤ percentage then "A"
  else if 70 ≤ percentage then "B"
  else if 55 ≤ percentage then "C"
  else if 40 ≤ percentage then "D"
  else "F"

/-- The countdown beat interval of the evolved `runCountdown`
(`src/unnamed/part_000` lines 1712-1734): the tempo-adjusted first-note
duration scaled by the note type. -/
def countdownBeatInterval (tempoPercent : ℚ) (firstNote : SequenceNote) :
    ℚ :=
  let firstNoteDuration := getAdjustedDuration tempoPercent
    firstNote.duration
  let noteType := if firstNote.noteType = "" then "quarter"
    else firstNote.noteType
  if noteType = "eighth" then firstNoteDuration * 2
  else if noteType = "half" then firstNoteDuration / 2
  else if noteType = "whole" then firstNoteDuration / 4
  else firstNoteDuration

/-- One visual-update tick of the evolved countdown
(`src/unnamed/part_000` lines 1772-1820): nothing happens before the
lead-in ends; the run enters `Playing` exactly when three beat intervals
have elapsed since `countdownStartTime`. -/
def countdownTick (beatIntervalMs : ℚ) (now countdownStartTime : ℚ)
    (s : SeqState) : SeqState :=
  if s.isCountingDown then
    if now < countdownStartTime then s
    else if beatIntervalMs * 3 ≤ now - countdownStartTime then
      { s with
        isCountingDown := false
        isPlaying := true
        noteStartTime := now
        lastSampleTime := 0 }
    else s
  else s

/-- Modelled from the spec (§4.5/C4): beat interval table — eighth note
gives twice its duration, half note half its duration, whole note one
quarter of its duration, quarter note the duration itself. -/
def specBeatInterval (tempoPercent : ℚ) (firstNote : SequenceNote) : ℚ :=
  let d := getAdjustedDuration tempoPercent firstNote.duration
  if firstNote.noteType = "eighth" then 2 * d
  else if firstNote.noteType = "half" then d / 2
  else if firstNote.noteType = "whole" then d / 4
  else d

/-- Zero `NoteScore`, used as the default of out-of-range list reads in
statements. -/
def noteScoreDefault : NoteScore :=
  { note := "", score := 0, avgCents := 0, timeOnPitch := 0, totalTime := 0 }

/-- The built-in `simple-scale` sequence of `src/app.js` lines 23-30, as
loaded with the identity transposition. -/
def simpleScaleNotes : List SequenceNote :=
  [{ note := "C", octave := 3, duration := 1050, noteType := "quarter",
     name := "C3" },
   { note := "D", octave := 3, duration := 1050, noteType := "quarter",
     name := "D3" },
   { note := "E", octave := 3, duration := 1050, noteType := "quarter",
     name := "E3" }]

/-- The built-in `full-scale` sequence of `src/app.js` lines 47-60, as
loaded with the identity transposition. -/
def fullScaleNotes : List SequenceNote :=
  [{ note := "C", octave := 3, duration := 575, noteType := "eighth",
     name := "C3" },
   { note := "D", octave := 3, duration := 575, noteType := "eighth",
     name := "D3" },
   { note := "E", octave := 3, duration := 575, noteType := "eighth",
     name := "E3" },
   { note := "F", octave := 3, duration := 575, noteType := "eighth",
     name := "F3" },
   { note := "G", octave := 3, duration := 575, noteType := "eighth",
     name := "G3" },
   { note := "A", octave := 3, duration := 575, noteType := "eighth",
     name := "A3" },
   { note := "B", octave := 3, duration := 575, noteType := "eighth",
     name := "B3" },
   { note := "C", octave := 4, duration := 575, noteType := "eighth",
     name := "C4" }]

/-- A concrete tick trace: 9 animation-frame ticks 34 ms apart (slightly
more than the 100/3 ms sample interval, so every tick samples), each
detecting a perfectly on-pitch voice (0 cents), starting 34 ms after the
run enters `Playing` at `t0 = 1000`. -/
def overshootTicks : List (ℚ × Option ℚ) :=
  (List.range 9).map
    (fun k => ((1000 : ℚ) + 34 * ((k : ℚ) + 1), some (0 : ℚ)))

/-- Invariant of a challenge run driven only by `analyzeSequence` ticks:
the note pointer tracks the number of completed `NoteScore` entries, stays
below the sequence length while playing, and the run finishes exactly once,
exactly when the pointer reaches the length. -/
def RunInv (seq : List SequenceNote) (s : SeqState) : Prop :=
  s.currentSequence = seq ∧
  s.noteScores.length = s.currentNoteIndex ∧
  (if s.isPlaying then
    s.currentNoteIndex < seq.length ∧ s.finishedCount = 0
  else
    s.currentNoteIndex = seq.length ∧ s.finishedCount = 1)

lemma calculateNoteScore_eq_spec (samples : List ℚ) (t T : ℚ) :
    calculateNoteScore samples t T = specNoteScore samples t T := by
  cases samples with
  | nil => rfl
  | cons a l => simp [calculateNoteScore, specNoteScore, specAccuracy]

lemma getD_concat_length (l : List NoteScore) (a d : NoteScore) :
    (l ++ [a]).getD l.length d = a := by
  simp [List.getD_eq_getElem?_getD, List.getElem?_concat_length]

lemma advanceNote_noteScores (t now : ℚ) (s : SeqState) :
    (advanceNote t now s).noteScores = s.noteScores ++
      [{ note := (s.currentSequence.getD s.currentNoteIndex
            defaultSequenceNote).name
         score := calculateNoteScore s.pitchSamplesForNote s.timeOnPitch
           (getAdjustedDuration t
             (s.currentSequence.getD s.currentNoteIndex
               defaultSequenceNote).duration)
         avgCents :=
           if 0 < s.pitchSamplesForNote.length then
             (s.pitchSamplesForNote.map (fun b => |b|)).sum /
               s.pitchSamplesForNote.length
           else 100
         timeOnPitch := s.timeOnPitch
         totalTime := (s.currentSequence.getD s.currentNoteIndex
           defaultSequenceNote).duration }] := by
  simp only [advanceNote, finishSequence, stopSequence]
  split <;> rfl

/-- C1: for every note completed during a challenge (every `advanceNote`
step), the recorded per-note score equals the spec's formula: 0 with no
samples, otherwise `round(accuracy + (timeOnPitch/totalTime)*40)` with the
spec's accuracy step function of the mean absolute cents deviation, where
`totalTime` is the note's tempo-adjusted duration. -/
theorem note_score_matches_spec (tempoPercent now : ℚ) (s : SeqState) :
    ((advanceNote tempoPercent now s).noteScores.getD s.noteScores.length
      noteScoreDefault).score =
    specNoteScore s.pitchSamplesForNote s.timeOnPitch
      (getAdjustedDuration tempoPercent
        (s.currentSequence.getD s.currentNoteIndex
          defaultSequenceNote).duration) := by
  rw [advanceNote_noteScores, getD_concat_length]
  exact calculateNoteScore_eq_spec _ _ _

/-- C10: the `NoteScore` pushed at note-advance sets `avgCents` to 100
(not 0) when no samples were collected, and sets `totalTime` to the note's
base duration at 100% tempo even though the score's time-on-pitch
denominator was the tempo-adjusted duration. -/
theorem advance_record_fields (tempoPercent now : ℚ) (s : SeqState) :
    (s.pitchSamplesForNote = [] →
      ((advanceNote tempoPercent now s).noteScores.getD s.noteScores.length
        noteScoreDefault).avgCents = 100) ∧
    ((advanceNote tempoPercent now s).noteScores.getD s.noteScores.length
      noteScoreDefault).totalTime =
      (s.currentSequence.getD s.currentNoteIndex
        defaultSequenceNote).duration ∧
    ((advanceNote tempoPercent now s).noteScores.getD s.noteScores.length
      noteScoreDefault).score =
      calculateNoteScore s.pitchSamplesForNote s.timeOnPitch
        (getAdjustedDuration tempoPercent
          (s.currentSequence.getD s.currentNoteIndex
            defaultSequenceNote).duration) := by
  rw [advanceNote_noteScores, getD_concat_length]
  refine ⟨fun h => ?_, rfl, rfl⟩
  simp [h]

theorem advance_record_fields_witness :
    (initialRunState simpleScaleNotes 0).pitchSamplesForNote = [] ∧
    ((advanceNote 200 0 (initialRunState simpleScaleNotes 0)).noteScores.getD
      0 noteScoreDefault).avgCents = 100 := by
  refine ⟨rfl, ?_⟩
  exact (advance_record_fields 200 0 (initialRunState simpleScaleNotes 0)).1
    rfl

/-- C8: cancelling a challenge mid-note (from `Playing` or
`CountingDown`) records no `NoteScore` for the interrupted note: the
completed-score list is untouched by `stopSequence`, both activity flags
drop, every later `analyzeSequence` tick on the stopped state is a no-op,
and the next run starts with freshly reset accumulators. -/
theorem stop_discards_in_progress (s : SeqState) (tempoPercent t : ℚ)
    (p : Option ℚ) (seq : List SequenceNote) (t0 : ℚ) :
    (stopSequence s).noteScores = s.noteScores ∧
    (stopSequence s).isPlaying = false ∧
    (stopSequence s).isCountingDown = false ∧
    analyzeSequence tempoPercent t p (stopSequence s) = stopSequence s ∧
    (initialRunState seq t0).pitchSamplesForNote = [] ∧
    (initialRunState seq t0).timeOnPitch = 0 ∧
    (initialRunState seq t0).noteScores = [] := by
  refine ⟨rfl, rfl, rfl, ?_, rfl, rfl, rfl⟩
  simp [analyzeSequence, stopSequence]

/-- C7: when a challenge finishes, the reported percentage is
`round(100 * Σscores / (100 * noteCount))` and the letter grade follows the
fixed thresholds ≥85→A, ≥70→B, ≥55→C, ≥40→D, else F. -/
theorem finish_results_match_spec (noteScores : List NoteScore)
    (h : 0 < noteScores.length) :
    (sequenceResults noteScores).1 =
      specPercentage (noteScores.map (fun ns => ns.score)) ∧
    (sequenceResults noteScores).2 =
      specGrade (sequenceResults noteScores).1 := by
  constructor
  · have hn : ((noteScores.length : ℚ)) ≠ 0 := by
      exact_mod_cast Nat.pos_iff_ne_zero.mp h
    simp only [sequenceResults, specPercentage, List.length_map]
    congr 1
    push_cast
    field_simp
    ring
  · rfl

theorem finish_results_match_spec_witness :
    0 < ([{ noteScoreDefault with score := 100 },
          { noteScoreDefault with score := 50 }] : List NoteScore).length ∧
    (sequenceResults [{ noteScoreDefault with score := 100 },
        { noteScoreDefault with score := 50 }]).1 =
      specPercentage ([{ noteScoreDefault with score := 100 },
          { noteScoreDefault with score := 50 }].map (fun ns => ns.score)) :=
  ⟨by decide,
   (finish_results_match_spec [{ noteScoreDefault with score := 100 },
      { noteScoreDefault with score := 50 }] (by decide)).1⟩

lemma tmod_twelve_bounds (s : ℤ) : -12 < s.tmod 12 ∧ s.tmod 12 < 12 := by
  rcases le_or_lt 0 s with h | h
  · have h1 := Int.tmod_nonneg 12 h
    have h2 := Int.tmod_lt_of_pos s (b := 12) (by norm_num)
    omega
  · have e : s.tmod 12 = -((-s).tmod 12) := by
      rw [Int.tmod_def, Int.tmod_def, Int.neg_tdiv]; ring
    have h1 := Int.tmod_nonneg (a := -s) 12 (by omega)
    have h2 := Int.tmod_lt_of_pos (-s) (b := 12) (by norm_num)
    omega

lemma wrap_index_eq_emod (s : ℤ) : ((s.tmod 12) + 12).tmod 12 = s % 12 := by
  have hb := tmod_twelve_bounds s
  have hdef : s.tmod 12 = s - 12 * s.tdiv 12 := Int.tmod_def s 12
  rw [Int.tmod_eq_emod (by omega) (by norm_num)]
  generalize s.tdiv 12 = t at hdef
  omega

lemma semitone_arith (o i : ℤ) (h1 : 0 ≤ i) (h2 : i < 12) :
    (o * 12 + i).fdiv 12 = o ∧
      (((o * 12 + i).tmod 12) + 12).tmod 12 = i := by
  constructor
  · rw [Int.fdiv_eq_ediv _ (by norm_num)]
    omega
  · rw [wrap_index_eq_emod]
    omega

lemma transpose_roundtrip_aux (note : String) (octave k i : ℤ)
    (hidx : jsIndexOf noteNames note = i) (h1 : 0 ≤ i) (h2 : i < 12)
    (hget : jsArrayGet noteNames i = note) :
    semitoneToNote (noteToSemitone note octave + k - k) = (note, octave) := by
  have harith := semitone_arith octave i h1 h2
  have hsem : noteToSemitone note octave + k - k = octave * 12 + i := by
    unfold noteToSemitone
    rw [hidx]; ring
  rw [hsem]
  show (jsArrayGet noteNames ((((octave * 12 + i).tmod 12) + 12).tmod 12),
    (octave * 12 + i).fdiv 12) = (note, octave)
  rw [harith.1, harith.2, hget]

/-- C5: transposing any note of a sequence by `+k` semitones and then by
`-k` reproduces the original note letter and octave exactly, and the
chromatic-index arithmetic always yields a non-negative index, even for
negative intermediate semitone values. -/
theorem transpose_roundtrip (note : String) (octave k : ℤ)
    (h : note ∈ noteNames) :
    semitoneToNote (noteToSemitone note octave + k - k) = (note, octave) ∧
    ∀ s : ℤ, 0 ≤ ((s.tmod 12) + 12).tmod 12 := by
  refine ⟨?_, fun s => by rw [wrap_index_eq_emod]; omega⟩
  fin_cases h
  · exact transpose_roundtrip_aux "C" octave k 0 (by decide) (by decide)
      (by decide) (by decide)
  · exact transpose_roundtrip_aux "C#" octave k 1 (by decide) (by decide)
      (by decide) (by decide)
  · exact transpose_roundtrip_aux "D" octave k 2 (by decide) (by decide)
      (by decide) (by decide)
  · exact transpose_roundtrip_aux "D#" octave k 3 (by decide) (by decide)
      (by decide) (by decide)
  · exact transpose_roundtrip_aux "E" octave k 4 (by decide) (by decide)
      (by decide) (by decide)
  · exact transpose_roundtrip_aux "F" octave k 5 (by decide) (by decide)
      (by decide) (by decide)
  · exact transpose_roundtrip_aux "F#" octave k 6 (by decide) (by decide)
      (by decide) (by decide)
  · exact transpose_roundtrip_aux "G" octave k 7 (by decide) (by decide)
      (by decide) (by decide)
  · exact transpose_roundtrip_aux "G#" octave k 8 (by decide) (by decide)
      (by decide) (by decide)
  · exact transpose_roundtrip_aux "A" octave k 9 (by decide) (by decide)
      (by decide) (by decide)
  · exact transpose_roundtrip_aux "A#" octave k 10 (by decide) (by decide)
      (by decide) (by decide)
  · exact transpose_roundtrip_aux "B" octave k 11 (by decide) (by decide)
      (by decide) (by decide)

theorem transpose_roundtrip_witness :
    "D" ∈ noteNames ∧
    semitoneToNote (noteToSemitone "D" 3 + (-50) - (-50)) = ("D", 3) :=
  ⟨by decide, (transpose_roundtrip "D" 3 (-50) (by decide)).1⟩

lemma sampleStep_preserves (t : ℚ) (p : Option ℚ) (s : SeqState) :
    (sampleStep t p s).isPlaying = s.isPlaying ∧
    (sampleStep t p s).isCountingDown = s.isCountingDown ∧
    (sampleStep t p s).currentSequence = s.currentSequence ∧
    (sampleStep t p s).currentNoteIndex = s.currentNoteIndex ∧
    (sampleStep t p s).noteScores = s.noteScores ∧
    (sampleStep t p s).finishedCount = s.finishedCount ∧
    (sampleStep t p s).noteStartTime = s.noteStartTime := by
  unfold sampleStep
  split
  · cases p
    · exact ⟨rfl, rfl, rfl, rfl, rfl, rfl, rfl⟩
    · dsimp only
      split <;> exact ⟨rfl, rfl, rfl, rfl, rfl, rfl, rfl⟩
  · exact ⟨rfl, rfl, rfl, rfl, rfl, rfl, rfl⟩

lemma advanceNote_currentNoteIndex (t now : ℚ) (s : SeqState) :
    (advanceNote t now s).currentNoteIndex = s.currentNoteIndex + 1 := by
  simp only [advanceNote, finishSequence, stopSequence]
  split <;> rfl

lemma advanceNote_currentSequence (t now : ℚ) (s : SeqState) :
    (advanceNote t now s).currentSequence = s.currentSequence := by
  simp only [advanceNote, finishSequence, stopSequence]
  split <;> rfl

lemma advanceNote_noteScores_length (t now : ℚ) (s : SeqState) :
    (advanceNote t now s).noteScores.length = s.noteScores.length + 1 := by
  rw [advanceNote_noteScores]
  simp

lemma advanceNote_isPlaying (t now : ℚ) (s : SeqState) :
    (advanceNote t now s).isPlaying =
      (if s.currentSequence.length ≤ s.currentNoteIndex + 1 then false
      else s.isPlaying) := by
  simp only [advanceNote, finishSequence, stopSequence]
  split <;> simp_all

lemma advanceNote_finishedCount (t now : ℚ) (s : SeqState) :
    (advanceNote t now s).finishedCount =
      (if s.currentSequence.length ≤ s.currentNoteIndex + 1 then
        s.finishedCount + 1
      else s.finishedCount) := by
  simp only [advanceNote, finishSequence, stopSequence]
  split <;> simp_all

lemma runInv_advance (seq : List SequenceNote) (t now : ℚ) (s : SeqState)
    (hp : s.isPlaying = true) (hinv : RunInv seq s) :
    RunInv seq (advanceNote t now s) := by
  obtain ⟨hseq, hlen, hif⟩ := hinv
  rw [hp] at hif
  simp only [if_true] at hif
  obtain ⟨hlt, hfc⟩ := hif
  have e1 := advanceNote_currentNoteIndex t now s
  have e2 := advanceNote_currentSequence t now s
  have e3 := advanceNote_noteScores_length t now s
  have e4 := advanceNote_isPlaying t now s
  have e5 := advanceNote_finishedCount t now s
  refine ⟨by rw [e2, hseq], by rw [e3, e1, hlen], ?_⟩
  by_cases hc : s.currentSequence.length ≤ s.currentNoteIndex + 1
  · rw [if_pos hc] at e4 e5
    rw [e4, e5, hfc, e1]
    simp only [Bool.false_eq_true, if_false]
    rw [hseq] at hc
    exact ⟨by omega, trivial⟩
  · rw [if_neg hc] at e4 e5
    rw [e4, e5, hfc, hp, e1]
    simp only [if_true]
    rw [hseq] at hc
    exact ⟨by omega, trivial⟩

lemma runInv_tick (seq : List SequenceNote) (t tp : ℚ) (p : Option ℚ)
    (s : SeqState) (hinv : RunInv seq s) :
    RunInv seq (analyzeSequence tp t p s) := by
  unfold analyzeSequence
  by_cases hp : s.isPlaying = true
  · rw [if_pos hp]
    dsimp only
    obtain ⟨q1, q2, q3, q4, q5, q6, q7⟩ := sampleStep_preserves t p s
    have hinv' : RunInv seq (sampleStep t p s) := by
      obtain ⟨hseq, hlen, hif⟩ := hinv
      exact ⟨by rw [q3, hseq], by rw [q5, q4, hlen], by
        rw [q1, q4, q6]; exact hif⟩
    split
    · exact runInv_advance seq tp t (sampleStep t p s)
        (by rw [q1, hp]) hinv'
    · exact hinv'
  · rw [if_neg hp]
    exact hinv

lemma runInv_runTicks (seq : List SequenceNote) (tp : ℚ)
    (inputs : List (ℚ × Option ℚ)) (s : SeqState) (hinv : RunInv seq s) :
    RunInv seq (runTicks tp inputs s) := by
  induction inputs generalizing s with
  | nil => exact hinv
  | cons hd tl ih =>
      exact ih (analyzeSequence tp hd.1 hd.2 s)
        (runInv_tick seq hd.1 tp hd.2 s hinv)

/-- C2: along any challenge run (any tick trace from the state that enters
`Playing` on a non-empty sequence), each advance increments the note index
by exactly 1, the index never exceeds the sequence length, the number of
recorded `NoteScore` entries always equals the index, the run finishes
exactly once — exactly when the index reaches the length — and a run that
has left `Playing` holds exactly one `NoteScore` per note of the
sequence. -/
theorem run_index_and_finish (seq : List SequenceNote) (t0 tempoPercent : ℚ)
    (inputs : List (ℚ × Option ℚ)) (h : 0 < seq.length) :
    (∀ (tp now : ℚ) (s : SeqState),
      (advanceNote tp now s).currentNoteIndex = s.currentNoteIndex + 1) ∧
    (runTicks tempoPercent inputs
        (initialRunState seq t0)).currentNoteIndex ≤ seq.length ∧
    (runTicks tempoPercent inputs (initialRunState seq t0)).noteScores.length
      = (runTicks tempoPercent inputs
          (initialRunState seq t0)).currentNoteIndex ∧
    ((runTicks tempoPercent inputs
        (initialRunState seq t0)).finishedCount =
      if (runTicks tempoPercent inputs
          (initialRunState seq t0)).currentNoteIndex = seq.length then 1
      else 0) ∧
    ((runTicks tempoPercent inputs (initialRunState seq t0)).isPlaying =
        false →
      (runTicks tempoPercent inputs
          (initialRunState seq t0)).noteScores.length = seq.length ∧
      (runTicks tempoPercent inputs
          (initialRunState seq t0)).finishedCount = 1) := by
  have hinit : RunInv seq (initialRunState seq t0) :=
    ⟨rfl, rfl, by simp [initialRunState]; omega⟩
  have hinv := runInv_runTicks seq tempoPercent inputs
    (initialRunState seq t0) hinit
  obtain ⟨hseq, hlen, hif⟩ := hinv
  refine ⟨fun tp now s => advanceNote_currentNoteIndex tp now s, ?_, hlen,
    ?_, ?_⟩ <;>
    by_cases hp : (runTicks tempoPercent inputs
      (initialRunState seq t0)).isPlaying = true
  · rw [if_pos hp] at hif
    omega
  · rw [if_neg hp] at hif
    omega
  · rw [if_pos hp] at hif
    rw [if_neg (by omega)]
    omega
  · rw [if_neg hp] at hif
    rw [if_pos (by omega)]
    omega
  · intro hfalse
    rw [hp] at hfalse
    exact absurd hfalse (by simp)
  · rw [if_neg hp] at hif
    intro hfalse
    omega

theorem run_index_and_finish_witness :
    0 < simpleScaleNotes.length ∧
    (runTicks 100 [] (initialRunState simpleScaleNotes 0)).noteScores.length
      = (runTicks 100 []
          (initialRunState simpleScaleNotes 0)).currentNoteIndex :=
  ⟨by decide,
   (run_index_and_finish simpleScaleNotes 0 100 [] (by decide)).2.2.1⟩

/-- C3 counterexample: a reachable run refutes the claim that every
per-note score lies in [0, 100].  Starting the built-in `full-scale`
sequence at tempo 200% (tempo-adjusted first-note duration 287.5 ms) and
singing perfectly on pitch, with animation frames every 34 ms, the
sampling loop fires 9 times before the advance test triggers, so
`timeOnPitch = 9 * (100/3) = 300 ms > 287.5 ms` and the recorded score is
`round(60 + 300/287.5*40) = 102 > 100`. -/
theorem score_range_counterexample :
    ((runTicks 200 overshootTicks
      (initialRunState fullScaleNotes 1000)).noteScores.map
        (fun ns => ns.score)) = [102] ∧ ¬ ((102 : ℤ) ≤ 100) := by
  constructor
  · norm_num [runTicks, overshootTicks, List.range, List.range.loop,
      analyzeSequence, sampleStep, advanceNote, initialRunState,
      fullScaleNotes, getAdjustedDuration, sequenceSampleInterval,
      calculateNoteScore, jsRoundQ, finishSequence, stopSequence,
      defaultSequenceNote]
    simp
  · norm_num

lemma jsRoundQ_nonneg (x : ℚ) (h : 0 ≤ x) : 0 ≤ jsRoundQ x := by
  unfold jsRoundQ
  rw [Int.le_floor]
  push_cast
  linarith

lemma jsRoundQ_le (x : ℚ) (hi : ℤ) (h : x ≤ (hi : ℚ)) : jsRoundQ x ≤ hi := by
  unfold jsRoundQ
  have hlt : ⌊x + 1/2⌋ < hi + 1 := by
    rw [Int.floor_lt]
    push_cast
    linarith
  omega

lemma accuracy_bounds (avg : ℚ) :
    10 ≤ specAccuracy avg ∧ specAccuracy avg ≤ 60 := by
  unfold specAccuracy
  split_ifs with h1 h2 h3 h4 h5
  · constructor <;> norm_num
  · constructor <;> norm_num
  · constructor <;> norm_num
  · constructor <;> norm_num
  · constructor <;> norm_num
  · refine ⟨le_max_left _ _, ?_⟩
    rw [max_le_iff]
    constructor
    · norm_num
    · linarith

/-- C3 amended: for every reachable per-note input (non-negative
accumulated `timeOnPitch`, positive tempo-adjusted total time) the score
is at least 0, and it is at most 100 whenever `timeOnPitch` does not
exceed the total time; the sampling loop can overshoot that bound (one
extra sample-interval increment on the advancing tick and carry-over of
the sampling phase across notes), making scores slightly above 100
reachable, as `score_range_counterexample` shows. -/
theorem score_range_amended (samples : List ℚ) (timeOnPitch totalTime : ℚ)
    (h0 : 0 ≤ timeOnPitch) (h2 : 0 < totalTime) :
    0 ≤ calculateNoteScore samples timeOnPitch totalTime ∧
    (timeOnPitch ≤ totalTime →
      calculateNoteScore samples timeOnPitch totalTime ≤ 100) := by
  rw [calculateNoteScore_eq_spec]
  unfold specNoteScore
  split_ifs with hs
  · exact ⟨le_refl 0, fun _ => by norm_num⟩
  · have hacc := accuracy_bounds ((samples.map (fun b => |b|)).sum /
      samples.length)
    have htr0 : 0 ≤ timeOnPitch / totalTime := by positivity
    refine ⟨jsRoundQ_nonneg _ (by nlinarith), fun h1 => ?_⟩
    have htr1 : timeOnPitch / totalTime ≤ 1 := by
      rw [div_le_one h2]; exact h1
    refine jsRoundQ_le _ 100 ?_
    push_cast
    nlinarith

theorem score_range_amended_witness :
    (0 : ℚ) ≤ 250 ∧ (0 : ℚ) < 500 ∧ (250 : ℚ) ≤ 500 ∧
    0 ≤ calculateNoteScore [0, 30] 250 500 ∧
    calculateNoteScore [0, 30] 250 500 ≤ 100 := by
  refine ⟨by norm_num, by norm_num, by norm_num, ?_, ?_⟩
  · exact (score_range_amended [0, 30] 250 500 (by norm_num)
      (by norm_num)).1
  · exact (score_range_amended [0, 30] 250 500 (by norm_num)
      (by norm_num)).2 (by norm_num)

/-- C4: at challenge start the countdown beat interval is derived from the
first note's tempo-adjusted duration and its note type — an eighth note
gives a beat of twice its duration, a half note half its duration, a whole
note one quarter of its duration, a quarter note the duration itself — and
a counting-down run enters `Playing` exactly when a 3-beat lead count has
elapsed (modelled from the evolved `runCountdown` of
`src/unnamed/part_000`). -/
theorem countdown_beat_and_three_beats (tempoPercent : ℚ)
    (firstNote : SequenceNote) (beat now start : ℚ) (s : SeqState)
    (hc : s.isCountingDown = true) (hp : s.isPlaying = false) :
    countdownBeatInterval tempoPercent firstNote =
      specBeatInterval tempoPercent firstNote ∧
    ((countdownTick beat now start s).isPlaying = true ↔
      (start ≤ now ∧ beat * 3 ≤ now - start)) := by
  constructor
  · unfold countdownBeatInterval specBeatInterval
    by_cases he : firstNote.noteType = ""
    · simp [he]
    · simp only [he, if_false]
      split_ifs <;> ring
  · unfold countdownTick
    rw [hc]
    rw [if_pos rfl]
    split_ifs with hlead hdone
    · rw [hp]
      simp only [Bool.false_eq_true, false_iff]
      rintro ⟨ha, _⟩
      linarith
    · refine ⟨fun _ => ⟨by linarith, hdone⟩, fun _ => rfl⟩
    · rw [hp]
      simp only [Bool.false_eq_true, false_iff]
      rintro ⟨ha, hb⟩
      exact hdone hb

theorem countdown_beat_and_three_beats_witness :
    ({ initialRunState fullScaleNotes 0 with
        isPlaying := false, isCountingDown := true } : SeqState).isCountingDown
      = true ∧
    ({ initialRunState fullScaleNotes 0 with
        isPlaying := false, isCountingDown := true } : SeqState).isPlaying
      = false ∧
    ((countdownTick 1050 4150 1000
        { initialRunState fullScaleNotes 0 with
          isPlaying := false, isCountingDown := true }).isPlaying = true ↔
      ((1000 : ℚ) ≤ 4150 ∧ (1050 : ℚ) * 3 ≤ 4150 - 1000)) :=
  ⟨rfl, rfl,
   (countdown_beat_and_three_beats 100 defaultSequenceNote 1050 4150 1000
      { initialRunState fullScaleNotes 0 with
        isPlaying := false, isCountingDown := true } rfl rfl).2⟩

/-- C9: any frame whose RMS is below the 0.005 silence threshold makes the
frequency estimator return the NONE sentinel `-1` (no frequency, no
exception), and in particular an all-zero buffer of any length returns
`-1`. -/
theorem silence_returns_none :
    (∀ (buffer : List ℝ) (sampleRate : ℝ),
      rmsOf buffer < 0.005 → detectPitch buffer sampleRate = -1) ∧
    (∀ (n : ℕ) (sampleRate : ℝ),
      detectPitch (List.replicate n 0) sampleRate = -1) := by
  have hmain : ∀ (buffer : List ℝ) (sampleRate : ℝ),
      rmsOf buffer < 0.005 → detectPitch buffer sampleRate = -1 := by
    intro buffer sampleRate h
    unfold detectPitch
    rw [if_pos h]
  refine ⟨hmain, fun n sampleRate => hmain _ _ ?_⟩
  have hz : rmsOf (List.replicate n (0 : ℝ)) = 0 := by
    unfold rmsOf
    simp
  rw [hz]
  norm_num

theorem silence_returns_none_witness :
    rmsOf [0, 0, 0] < 0.005 ∧ detectPitch [0, 0, 0] 44100 = -1 := by
  have hz : rmsOf [(0 : ℝ), 0, 0] < 0.005 := by
    unfold rmsOf
    norm_num
  exact ⟨hz, silence_returns_none.1 [0, 0, 0] 44100 hz⟩

lemma freq_midi_logb (m : ℤ) :
    12 * Real.logb 2 ((440 * (2 : ℝ) ^ (((m : ℝ) - 69) / 12)) / 440) + 69
      = (m : ℝ) := by
  rw [mul_div_cancel_left₀ _ (by norm_num : (440 : ℝ) ≠ 0)]
  rw [Real.logb_rpow (by norm_num) (by norm_num)]
  ring

lemma jsRoundR_intCast (m : ℤ) : jsRoundR ((m : ℝ)) = m := by
  unfold jsRoundR
  rw [Int.floor_int_add]
  norm_num

lemma noteFromFrequency_of_midi (m : ℤ) (hm : 0 ≤ m) :
    getNoteFromFrequency (440 * (2 : ℝ) ^ (((m : ℝ) - 69) / 12)) =
      jsArrayGet noteNames (m % 12) ++ toString (m / 12 - 1) := by
  simp only [getNoteFromFrequency]
  rw [freq_midi_logb, jsRoundR_intCast,
    Int.tmod_eq_emod hm (by norm_num), Int.fdiv_eq_ediv _ (by norm_num)]

lemma frequency_roundtrip_case (note : String) (octave i : ℤ)
    (hidx : jsIndexOf noteNames note = i) (h0 : 0 ≤ i) (h12 : i < 12)
    (h2 : -1 ≤ octave) (hget : jsArrayGet noteNames i = note) :
    getNoteFromFrequency (getFrequency note octave) =
      note ++ toString octave := by
  have hm : 0 ≤ (octave + 1) * 12 + i := by omega
  have hfreq : getFrequency note octave =
      440 * (2 : ℝ) ^ (((((octave + 1) * 12 + i : ℤ) : ℝ) - 69) / 12) := by
    simp only [getFrequency, hidx]
  rw [hfreq, noteFromFrequency_of_midi _ hm]
  have e1 : ((octave + 1) * 12 + i) % 12 = i := by omega
  have e2 : ((octave + 1) * 12 + i) / 12 - 1 = octave := by omega
  rw [e1, e2, hget]

/-- C6: for every sharp-canonical note letter and every octave in (a
superset of) the vocal range, converting the note to its frequency and
back recovers exactly the same rendered note name and octave:
`getNoteFromFrequency (getFrequency note octave) = note ++ octave`. -/
theorem frequency_note_roundtrip (note : String) (octave : ℤ)
    (h1 : note ∈ noteNames) (h2 : -1 ≤ octave) :
    getNoteFromFrequency (getFrequency note octave) =
      note ++ toString octave := by
  fin_cases h1
  · exact frequency_roundtrip_case "C" octave 0 (by decide) (by decide)
      (by decide) h2 (by decide)
  · exact frequency_roundtrip_case "C#" octave 1 (by decide) (by decide)
      (by decide) h2 (by decide)
  · exact frequency_roundtrip_case "D" octave 2 (by decide) (by decide)
      (by decide) h2 (by decide)
  · exact frequency_roundtrip_case "D#" octave 3 (by decide) (by decide)
      (by decide) h2 (by decide)
  · exact frequency_roundtrip_case "E" octave 4 (by decide) (by decide)
      (by decide) h2 (by decide)
  · exact frequency_roundtrip_case "F" octave 5 (by decide) (by decide)
      (by decide) h2 (by decide)
  · exact frequency_roundtrip_case "F#" octave 6 (by decide) (by decide)
      (by decide) h2 (by decide)
  · exact frequency_roundtrip_case "G" octave 7 (by decide) (by decide)
      (by decide) h2 (by decide)
  · exact frequency_roundtrip_case "G#" octave 8 (by decide) (by decide)
      (by decide) h2 (by decide)
  · exact frequency_roundtrip_case "A" octave 9 (by decide) (by decide)
      (by decide) h2 (by decide)
  · exact frequency_roundtrip_case "A#" octave 10 (by decide) (by decide)
      (by decide) h2 (by decide)
  · exact frequency_roundtrip_case "B" octave 11 (by decide) (by decide)
      (by decide) h2 (by decide)

theorem frequency_note_roundtrip_witness :
    "A" ∈ noteNames ∧ (-1 : ℤ) ≤ 4 ∧
    getNoteFromFrequency (getFrequency "A" 4) = "A" ++ toString (4 : ℤ) :=
  ⟨by decide, by decide,
   frequency_note_roundtrip "A" 4 (by decide) (by decide)⟩
